import Mathlib

/-
Verification of the th06 ECL decoder (src/formats/src/th06/ecl.rs) against its
natural-language specification.

The Rust code is shallowly embedded: byte buffers are lists of naturals
(each byte below 256 for real inputs), nom parsers become total Lean
functions returning an explicit result type with three outcomes -- success
(remaining input plus value), a typed nom error (the only errors this file
ever constructs carry ErrorKind values), and a process abort.  Rust panics
(assert_eq!, Option::unwrap on None, unreachable!, slice index out of
range) are modelled by the abort outcome, since separating aborts from
typed errors is exactly what several spec claims are about.

Machine integers are Nat / Int with explicit two-complement reinterpretation
where the source reads signed fields; f32 fields are carried as their raw
little-endian 32-bit patterns because no decoding decision in the source
depends on float semantics; the SHIFT_JIS conversion performed by
encoding_rs is external library code that never fails (malformed sequences
are replaced), so the decoded string is carried as the exact byte list the
source passes to that converter.
-/

namespace ECL

/-- Byte buffers: the remaining slice of the input, one Nat per byte. -/
abbrev Bytes := List Nat

/-- The nom ErrorKind values this module can produce: Eof from the
number parsers and the explicit sentinel / main_count errors, Many0 from
the many0 combinator loop guard, Count from the count combinator. -/
inductive ErrorKind where
  | Eof
  | Many0
  | Count
  deriving DecidableEq, Repr

/-- nom error value: the input position at the failure plus the kind
(nom::error::Error::new(i, kind)). -/
structure NomError where
  pos : Bytes
  kind : ErrorKind
  deriving DecidableEq, Repr

/-- Outcome of running a piece of the decoder: success, a typed nom error
(Err::Error), or a process abort (Rust panic). -/
inductive PResult (α : Type) where
  | ok : α → PResult α
  | err : NomError → PResult α
  | panic : String → PResult α
  deriving DecidableEq, Repr

/-- Sequencing for parsers (the ? operator on IResult): on success feed the
remaining input and the value to the continuation, propagate errors and
panics. -/
def pbind {α β : Type} (r : PResult (Bytes × α)) (f : Bytes → α → PResult β) : PResult β :=
  match r with
  | .ok (i, a) => f i a
  | .err e => .err e
  | .panic m => .panic m

/-- nom number::complete::le_u8. -/
def le_u8 : Bytes → PResult (Bytes × Nat)
  | b0 :: rest => .ok (rest, b0)
  | i => .err ⟨i, .Eof⟩

/-- nom number::complete::le_u16 (little endian). -/
def le_u16 : Bytes → PResult (Bytes × Nat)
  | b0 :: b1 :: rest => .ok (rest, b0 + 256 * b1)
  | i => .err ⟨i, .Eof⟩

/-- nom number::complete::le_u32 (little endian). -/
def le_u32 : Bytes → PResult (Bytes × Nat)
  | b0 :: b1 :: b2 :: b3 :: rest =>
      .ok (rest, b0 + 256 * b1 + 65536 * b2 + 16777216 * b3)
  | i => .err ⟨i, .Eof⟩

/-- Reinterpret an unsigned 16-bit value as two-complement signed. -/
def toI16 (v : Nat) : Int :=
  if v < 32768 then (v : Int) else (v : Int) - 65536

/-- Reinterpret an unsigned 32-bit value as two-complement signed. -/
def toI32 (v : Nat) : Int :=
  if v < 2147483648 then (v : Int) else (v : Int) - 4294967296

/-- nom number::complete::le_i16. -/
def le_i16 (i : Bytes) : PResult (Bytes × Int) :=
  pbind (le_u16 i) fun i v => .ok (i, toI16 v)

/-- nom number::complete::le_i32. -/
def le_i32 (i : Bytes) : PResult (Bytes × Int) :=
  pbind (le_u32 i) fun i v => .ok (i, toI32 v)

/-- nom number::complete::le_f32: four little-endian bytes read as an
IEEE-754 f32; the value is carried as its raw 32-bit pattern. -/
def le_f32 (i : Bytes) : PResult (Bytes × Nat) :=
  le_u32 i

/-- Embedding of le_String from the source: data is the first segment of
the WHOLE remaining input before a zero byte (i.splitn(2, zero).nth(0)),
which is then handed to the infallible SHIFT_JIS converter (the returned
string is carried as that byte list); the cursor result is the slice
i[34..], which in Rust panics when fewer than 34 bytes remain. -/
def le_String (i : Bytes) : PResult (Bytes × List Nat) :=
  let data := i.takeWhile (fun c => c ≠ 0)
  if 34 ≤ i.length then .ok (i.drop 34, data)
  else .panic "slice index out of range"

/-- Bit flags describing the current difficulty level (bitflags struct
with EASY = 0x100, NORMAL = 0x200, HARD = 0x400, LUNATIC = 0x800,
ALL = 0xff00); the carried value is the raw u16 bit pattern. -/
structure Rank where
  bits : Nat
  deriving DecidableEq, Repr

/-- bitflags from_bits: Some exactly when no bit outside the union of all
declared flags is set; the union here is 0xff00 (ALL covers the four named
bits), whose u16 complement is 0x00ff. -/
def Rank.from_bits (raw : Nat) : Option Rank :=
  if raw &&& 255 = 0 then some ⟨raw⟩ else none

/-- Primitive field kinds appearing in the two declarative opcode tables
(the declare_sub_instructions! and declare_main_instructions! macro
inputs). -/
inductive FieldType where
  | i16
  | u16
  | i32
  | u32
  | f32
  | u8
  | str
  deriving DecidableEq, Repr

/-- A decoded primitive field value: signed integers, unsigned integers
(f32 carried as raw bits), or the SHIFT_JIS-decoded text carried as the
byte list handed to the converter. -/
inductive Value where
  | vi : Int → Value
  | vn : Nat → Value
  | vs : List Nat → Value
  deriving DecidableEq, Repr

/-- A SubInstruction enum value: the macro-generated tagged union is
represented by its tag (the opcode) plus the ordered argument tuple. -/
structure SubInstruction where
  opcode : Nat
  args : List Value
  deriving DecidableEq, Repr

/-- A MainInstruction enum value, same representation as SubInstruction. -/
structure MainInstruction where
  opcode : Nat
  args : List Value
  deriving DecidableEq, Repr

/-- A single instruction call of a Sub script. -/
structure CallSub where
  time : Int
  rank_mask : Rank
  param_mask : Nat
  instr : SubInstruction
  deriving DecidableEq, Repr

/-- Script driving one enemy: list of instructions. -/
structure Sub where
  instructions : List CallSub
  deriving DecidableEq, Repr

/-- A single instruction call of a Main script. -/
structure CallMain where
  time : Nat
  sub : Nat
  instr : MainInstruction
  deriving DecidableEq, Repr

/-- Top-level scheduling script: list of instructions. -/
structure Main where
  instructions : List CallMain
  deriving DecidableEq, Repr

/-- Main struct of the ECL format: subs plus mains. -/
structure Ecl where
  subs : List Sub
  mains : List Main
  deriving DecidableEq, Repr

/-- The declarative Sub opcode table (declare_sub_instructions! input):
opcode to ordered argument field list; reserved opcodes are absent. -/
def sub_opcode_table : Nat → Option (List FieldType)
  | 0 => some []
  | 1 => some [.u32]
  | 2 => some [.i32, .i32]
  | 3 => some [.i32, .i32, .i32]
  | 4 => some [.i32, .i32]
  | 5 => some [.i32, .f32]
  | 6 => some [.i32, .i32]
  | 7 => some [.i32, .i32, .i32]
  | 8 => some [.i32, .f32]
  | 9 => some [.i32, .f32, .f32]
  | 10 => some [.i32]
  | 11 => some [.i32]
  | 12 => some [.i32]
  | 13 => some [.i32, .i32, .i32]
  | 14 => some [.i32, .i32, .i32]
  | 15 => some [.i32, .i32, .i32]
  | 16 => some [.i32, .i32, .i32]
  | 17 => some [.i32, .i32, .i32]
  | 18 => some [.i32]
  | 19 => some [.i32]
  | 20 => some [.i32, .f32, .f32]
  | 21 => some [.i32, .f32, .f32]
  | 22 => some [.i32, .f32, .f32]
  | 23 => some [.i32, .f32, .f32]
  | 24 => some [.i32, .f32, .f32]
  | 25 => some [.i32, .f32, .f32, .f32, .f32]
  | 26 => some [.i32]
  | 27 => some [.i32, .i32]
  | 28 => some [.f32, .f32]
  | 29 => some [.i32, .i32]
  | 30 => some [.i32, .i32]
  | 31 => some [.i32, .i32]
  | 32 => some [.i32, .i32]
  | 33 => some [.i32, .i32]
  | 34 => some [.i32, .i32]
  | 35 => some [.i32, .i32, .f32]
  | 36 => some []
  | 37 => some [.i32, .i32, .f32, .i32, .i32]
  | 38 => some [.i32, .i32, .f32, .i32, .i32]
  | 39 => some [.i32, .i32, .f32, .i32, .i32]
  | 40 => some [.i32, .i32, .f32, .i32, .i32]
  | 41 => some [.i32, .i32, .f32, .i32, .i32]
  | 42 => some [.i32, .i32, .f32, .i32, .i32]
  | 43 => some [.f32, .f32, .f32]
  | 45 => some [.f32, .f32]
  | 46 => some [.f32]
  | 47 => some [.f32]
  | 48 => some [.f32]
  | 49 => some [.f32, .f32]
  | 50 => some [.f32, .f32]
  | 51 => some [.f32, .f32]
  | 52 => some [.i32, .f32, .f32]
  | 56 => some [.i32, .f32, .f32, .f32]
  | 57 => some [.i32, .f32, .f32, .f32]
  | 59 => some [.i32, .f32, .f32, .f32]
  | 61 => some [.i32]
  | 63 => some [.i32]
  | 65 => some [.f32, .f32, .f32, .f32]
  | 66 => some []
  | 67 => some [.i16, .i16, .i32, .i32, .f32, .f32, .f32, .f32, .u32]
  | 68 => some [.i16, .i16, .i32, .i32, .f32, .f32, .f32, .f32, .u32]
  | 69 => some [.i16, .i16, .i32, .i32, .f32, .f32, .f32, .f32, .u32]
  | 70 => some [.i16, .i16, .i32, .i32, .f32, .f32, .f32, .f32, .u32]
  | 71 => some [.i16, .i16, .i32, .i32, .f32, .f32, .f32, .f32, .u32]
  | 74 => some [.i16, .i16, .i32, .i32, .f32, .f32, .f32, .f32, .u32]
  | 75 => some [.i16, .i16, .i32, .i32, .f32, .f32, .f32, .f32, .u32]
  | 76 => some [.i32]
  | 77 => some [.i32]
  | 78 => some []
  | 79 => some []
  | 81 => some [.f32, .f32, .f32]
  | 82 => some [.i32, .i32, .i32, .i32, .f32, .f32, .f32, .f32]
  | 83 => some []
  | 84 => some [.i32]
  | 85 => some [.i16, .i16, .f32, .f32, .f32, .f32, .f32, .f32, .i32, .i32, .i32, .i32, .i32, .i32]
  | 86 => some [.i16, .i16, .f32, .f32, .f32, .f32, .f32, .f32, .i32, .i32, .i32, .i32, .i32, .i32]
  | 87 => some [.u32]
  | 88 => some [.u32, .f32]
  | 90 => some [.u32, .f32, .f32, .f32]
  | 91 => some [.u32]
  | 92 => some [.u32]
  | 93 => some [.i16, .i16, .str]
  | 94 => some []
  | 95 => some [.i32, .f32, .f32, .f32, .i16, .i16, .i32]
  | 96 => some []
  | 97 => some [.i32]
  | 98 => some [.i16, .i16, .i16, .i16, .i16, .i16]
  | 99 => some [.i32, .i32]
  | 100 => some [.i32]
  | 101 => some [.i32]
  | 102 => some [.i32, .f32, .f32, .f32, .f32]
  | 103 => some [.f32, .f32, .f32]
  | 104 => some [.i32]
  | 105 => some [.i32]
  | 106 => some [.i32]
  | 107 => some [.u32]
  | 108 => some [.i32]
  | 109 => some [.i32, .i32]
  | 111 => some [.i32]
  | 112 => some [.i32]
  | 113 => some [.i32]
  | 114 => some [.i32]
  | 115 => some [.i32]
  | 116 => some [.i32]
  | 117 => some [.i32]
  | 118 => some [.i32, .u32, .u8, .u8, .u8, .u8]
  | 119 => some [.i32]
  | 120 => some [.i32]
  | 121 => some [.i32, .i32]
  | 122 => some [.i32]
  | 123 => some [.i32]
  | 124 => some [.i32]
  | 125 => some []
  | 126 => some [.i32]
  | 127 => some [.i32]
  | 128 => some [.i32]
  | 129 => some [.i32, .i32]
  | 130 => some [.i32]
  | 131 => some [.f32, .f32, .i32, .i32, .i32, .i32]
  | 132 => some [.i32]
  | 133 => some []
  | 134 => some []
  | 135 => some [.i32]
  | _ => none

/-- The declarative Main opcode table (declare_main_instructions! input). -/
def main_opcode_table : Nat → Option (List FieldType)
  | 0 => some [.f32, .f32, .f32, .i16, .i16, .u32]
  | 2 => some [.f32, .f32, .f32, .i16, .i16, .u32]
  | 4 => some [.f32, .f32, .f32, .i16, .i16, .u32]
  | 6 => some [.f32, .f32, .f32, .i16, .i16, .u32]
  | 8 => some []
  | 9 => some []
  | 10 => some [.f32, .f32]
  | 12 => some []
  | _ => none

/-- Decode one primitive field (the concat_idents!(le_, type) call of the
macro expansion). -/
def parse_field (ft : FieldType) (i : Bytes) : PResult (Bytes × Value) :=
  match ft with
  | .u8 => pbind (le_u8 i) fun i v => .ok (i, .vn v)
  | .u16 => pbind (le_u16 i) fun i v => .ok (i, .vn v)
  | .i16 => pbind (le_i16 i) fun i v => .ok (i, .vi v)
  | .i32 => pbind (le_i32 i) fun i v => .ok (i, .vi v)
  | .u32 => pbind (le_u32 i) fun i v => .ok (i, .vn v)
  | .f32 => pbind (le_f32 i) fun i v => .ok (i, .vn v)
  | .str => pbind (le_String i) fun i s => .ok (i, .vs s)

/-- Decode an ordered argument tuple, fields in declaration order. -/
def parse_args : List FieldType → Bytes → PResult (Bytes × List Value)
  | [], i => .ok (i, [])
  | ft :: fts, i =>
      pbind (parse_field ft i) fun i v =>
      pbind (parse_args fts i) fun i vs =>
      .ok (i, v :: vs)

/-- The macro-generated argument decoder for Sub opcodes: an opcode absent
from the table hits the unreachable! branch (a panic). -/
def parse_sub_instruction_args (input : Bytes) (opcode : Nat) :
    PResult (Bytes × SubInstruction) :=
  match sub_opcode_table opcode with
  | none => .panic "unreachable"
  | some fts => pbind (parse_args fts input) fun i vs => .ok (i, ⟨opcode, vs⟩)

/-- The macro-generated argument decoder for Main opcodes. -/
def parse_main_instruction_args (input : Bytes) (opcode : Nat) :
    PResult (Bytes × MainInstruction) :=
  match main_opcode_table opcode with
  | none => .panic "unreachable"
  | some fts => pbind (parse_args fts input) fun i vs => .ok (i, ⟨opcode, vs⟩)

/-- parse_sub_instruction from the source: read time (i32) and opcode
(u16); the sentinel test in the code is the DISJUNCTION
time == -1 OR opcode == 0xffff (returning Err Eof, which ends many0);
then size, rank_mask, param_mask (u16 each); Rank::from_bits(..).unwrap()
panics on invalid bits; args by dispatch; assert_eq! that the consumed
byte count equals size panics on mismatch. -/
def parse_sub_instruction (input : Bytes) : PResult (Bytes × CallSub) :=
  pbind (le_i32 input) fun i time =>
  pbind (le_u16 i) fun i opcode =>
  if time = -1 ∨ opcode = 65535 then .err ⟨i, .Eof⟩
  else
  pbind (le_u16 i) fun i size =>
  pbind (le_u16 i) fun i rank_raw =>
  pbind (le_u16 i) fun i param_mask =>
  match Rank.from_bits rank_raw with
  | none => .panic "unwrap on None"
  | some rank_mask =>
    pbind (parse_sub_instruction_args i opcode) fun i instr =>
    if input.length - i.length = size then
      .ok (i, { time := time, rank_mask := rank_mask, param_mask := param_mask, instr := instr })
    else .panic "assertion failed"

/-- parse_main_instruction from the source: read time (u16) and sub (u16);
the sentinel is the CONJUNCTION time == 0xffff AND sub == 4; then opcode
and size (u16 each); args by dispatch; assert_eq! on the consumed byte
count. -/
def parse_main_instruction (input : Bytes) : PResult (Bytes × CallMain) :=
  pbind (le_u16 input) fun i time =>
  pbind (le_u16 i) fun i sub =>
  if time = 65535 ∧ sub = 4 then .err ⟨i, .Eof⟩
  else
  pbind (le_u16 i) fun i opcode =>
  pbind (le_u16 i) fun i size =>
  pbind (parse_main_instruction_args i opcode) fun i instr =>
  if input.length - i.length = size then
    .ok (i, { time := time, sub := sub, instr := instr })
  else .panic "assertion failed"

/-- nom many0: repeat the parser, stop (successfully) at the first
Err::Error, propagate panics, and fail with ErrorKind::Many0 if an
iteration succeeds without consuming input.  The extra fuel argument makes
the function structurally total; every call site passes more fuel than the
input length, which is sufficient because both record parsers strictly
consume on success (proved below). -/
def many0F {α : Type} (p : Bytes → PResult (Bytes × α)) :
    Nat → Bytes → PResult (Bytes × List α)
  | 0, _ => .panic "many0 fuel exhausted"
  | fuel + 1, i =>
    match p i with
    | .err _ => .ok (i, [])
    | .panic m => .panic m
    | .ok (i2, a) =>
      if i2.length = i.length then .err ⟨i, .Many0⟩
      else
        match many0F p fuel i2 with
        | .ok (i3, xs) => .ok (i3, a :: xs)
        | .err e => .err e
        | .panic m => .panic m

/-- parse_sub: many0 over parse_sub_instruction. -/
def parse_sub (i : Bytes) : PResult (Bytes × Sub) :=
  pbind (many0F parse_sub_instruction (i.length + 1) i) fun i instrs =>
  .ok (i, ⟨instrs⟩)

/-- parse_main: many0 over parse_main_instruction. -/
def parse_main (i : Bytes) : PResult (Bytes × Main) :=
  pbind (many0F parse_main_instruction (i.length + 1) i) fun i instrs =>
  .ok (i, ⟨instrs⟩)

/-- nom count: run the parser exactly n times, collecting the values (the
default nom error type keeps the inner error on failure). -/
def countP {α : Type} (p : Bytes → PResult (Bytes × α)) :
    Nat → Bytes → PResult (Bytes × List α)
  | 0, i => .ok (i, [])
  | n + 1, i =>
      pbind (p i) fun i2 a =>
      pbind (countP p n i2) fun i3 xs =>
      .ok (i3, a :: xs)

/-- The sub-reading loop of parse_ecl: for each offset, parse_sub at
input[offset..]; the Rust slice expression panics when the offset exceeds
the buffer length; the ? operator propagates errors. -/
def read_subs (input : Bytes) : List Nat → PResult (List Sub)
  | [] => .ok []
  | offset :: rest =>
    if offset ≤ input.length then
      match parse_sub (input.drop offset) with
      | .ok (_, sub) =>
        match read_subs input rest with
        | .ok subs => .ok (sub :: subs)
        | .err e => .err e
        | .panic m => .panic m
      | .err e => .err e
      | .panic m => .panic m
    else .panic "slice index out of range"

/-- The main-reading loop of parse_ecl: same as read_subs but stops at the
first zero offset. -/
def read_mains (input : Bytes) : List Nat → PResult (List Main)
  | [] => .ok []
  | offset :: rest =>
    if offset = 0 then .ok []
    else if offset ≤ input.length then
      match parse_main (input.drop offset) with
      | .ok (_, main) =>
        match read_mains input rest with
        | .ok mains => .ok (main :: mains)
        | .err e => .err e
        | .panic m => .panic m
      | .err e => .err e
      | .panic m => .panic m
    else .panic "slice index out of range"

/-- parse_ecl from the source: read sub_count and main_count (u16); a
non-zero main_count is rejected with a generic Err Eof (the code carries a
TODO to use a better error); read 3 main offsets and sub_count sub offsets
(u32, via nom count); read all subs, then mains up to the first zero
offset; the final remaining input is the empty slice literal. -/
def parse_ecl (input : Bytes) : PResult (Bytes × Ecl) :=
  pbind (le_u16 input) fun i sub_count =>
  pbind (le_u16 i) fun i main_count =>
  if main_count ≠ 0 then .err ⟨i, .Eof⟩
  else
  pbind (countP le_u32 3 i) fun i2 main_offsets =>
  pbind (countP le_u32 sub_count i2) fun _ sub_offsets =>
  match read_subs input sub_offsets with
  | .err e => .err e
  | .panic m => .panic m
  | .ok subs =>
    match read_mains input main_offsets with
    | .err e => .err e
    | .panic m => .panic m
    | .ok mains => .ok ([], { subs := subs, mains := mains })

/-- Ecl::from_slice: the public entry point, delegating to parse_ecl. -/
def Ecl.from_slice (data : Bytes) : PResult (Bytes × Ecl) :=
  parse_ecl data

/-! Helper lemmas: success shapes of the primitive parsers, consumption
bounds, and lengths of the collection loops. -/

theorem le_u8_ok {i i' : Bytes} {v : Nat} (h : le_u8 i = .ok (i', v)) :
    i' = i.drop 1 ∧ 1 ≤ i.length := by
  match i with
  | [] => simp [le_u8] at h
  | b0 :: rest =>
    simp only [le_u8, PResult.ok.injEq, Prod.mk.injEq] at h
    exact ⟨h.1.symm, by simp⟩

theorem le_u16_ok {i i' : Bytes} {v : Nat} (h : le_u16 i = .ok (i', v)) :
    i' = i.drop 2 ∧ 2 ≤ i.length := by
  match i with
  | [] => simp [le_u16] at h
  | [b0] => simp [le_u16] at h
  | b0 :: b1 :: rest =>
    simp only [le_u16, PResult.ok.injEq, Prod.mk.injEq] at h
    exact ⟨h.1.symm, by simp⟩

theorem le_u32_ok {i i' : Bytes} {v : Nat} (h : le_u32 i = .ok (i', v)) :
    i' = i.drop 4 ∧ 4 ≤ i.length := by
  match i with
  | [] => simp [le_u32] at h
  | [b0] => simp [le_u32] at h
  | [b0, b1] => simp [le_u32] at h
  | [b0, b1, b2] => simp [le_u32] at h
  | b0 :: b1 :: b2 :: b3 :: rest =>
    simp only [le_u32, PResult.ok.injEq, Prod.mk.injEq] at h
    exact ⟨h.1.symm, by simp⟩

theorem le_i16_ok {i i' : Bytes} {v : Int} (h : le_i16 i = .ok (i', v)) :
    i' = i.drop 2 ∧ 2 ≤ i.length := by
  unfold le_i16 at h
  cases h2 : le_u16 i with
  | ok p =>
    obtain ⟨i2, w⟩ := p
    rw [h2] at h
    simp only [pbind, PResult.ok.injEq, Prod.mk.injEq] at h
    exact h.1 ▸ le_u16_ok h2
  | err e => rw [h2] at h; simp [pbind] at h
  | panic m => rw [h2] at h; simp [pbind] at h

theorem le_i32_ok {i i' : Bytes} {v : Int} (h : le_i32 i = .ok (i', v)) :
    i' = i.drop 4 ∧ 4 ≤ i.length := by
  unfold le_i32 at h
  cases h2 : le_u32 i with
  | ok p =>
    obtain ⟨i2, w⟩ := p
    rw [h2] at h
    simp only [pbind, PResult.ok.injEq, Prod.mk.injEq] at h
    exact h.1 ▸ le_u32_ok h2
  | err e => rw [h2] at h; simp [pbind] at h
  | panic m => rw [h2] at h; simp [pbind] at h

theorem le_f32_ok {i i' : Bytes} {v : Nat} (h : le_f32 i = .ok (i', v)) :
    i' = i.drop 4 ∧ 4 ≤ i.length :=
  le_u32_ok h

theorem le_String_ok {i i' : Bytes} {s : List Nat} (h : le_String i = .ok (i', s)) :
    i' = i.drop 34 ∧ 34 ≤ i.length := by
  unfold le_String at h
  split at h
  · simp only [PResult.ok.injEq, Prod.mk.injEq] at h
    exact ⟨h.1.symm, by assumption⟩
  · simp at h

theorem parse_field_ok {ft : FieldType} {i i' : Bytes} {v : Value}
    (h : parse_field ft i = .ok (i', v)) :
    ∃ k, 1 ≤ k ∧ i' = i.drop k ∧ k ≤ i.length := by
  cases ft with
  | u8 =>
    unfold parse_field at h
    cases h2 : le_u8 i with
    | ok p =>
      obtain ⟨i2, w⟩ := p
      rw [h2] at h
      simp only [pbind, PResult.ok.injEq, Prod.mk.injEq] at h
      obtain ⟨hu1, hu2⟩ := le_u8_ok h2
      exact ⟨1, le_refl 1, h.1 ▸ hu1, hu2⟩
    | err e => rw [h2] at h; simp [pbind] at h
    | panic m => rw [h2] at h; simp [pbind] at h
  | u16 =>
    unfold parse_field at h
    cases h2 : le_u16 i with
    | ok p =>
      obtain ⟨i2, w⟩ := p
      rw [h2] at h
      simp only [pbind, PResult.ok.injEq, Prod.mk.injEq] at h
      obtain ⟨hu1, hu2⟩ := le_u16_ok h2
      exact ⟨2, by omega, h.1 ▸ hu1, hu2⟩
    | err e => rw [h2] at h; simp [pbind] at h
    | panic m => rw [h2] at h; simp [pbind] at h
  | i16 =>
    unfold parse_field at h
    cases h2 : le_i16 i with
    | ok p =>
      obtain ⟨i2, w⟩ := p
      rw [h2] at h
      simp only [pbind, PResult.ok.injEq, Prod.mk.injEq] at h
      obtain ⟨hu1, hu2⟩ := le_i16_ok h2
      exact ⟨2, by omega, h.1 ▸ hu1, hu2⟩
    | err e => rw [h2] at h; simp [pbind] at h
    | panic m => rw [h2] at h; simp [pbind] at h
  | i32 =>
    unfold parse_field at h
    cases h2 : le_i32 i with
    | ok p =>
      obtain ⟨i2, w⟩ := p
      rw [h2] at h
      simp only [pbind, PResult.ok.injEq, Prod.mk.injEq] at h
      obtain ⟨hu1, hu2⟩ := le_i32_ok h2
      exact ⟨4, by omega, h.1 ▸ hu1, hu2⟩
    | err e => rw [h2] at h; simp [pbind] at h
    | panic m => rw [h2] at h; simp [pbind] at h
  | u32 =>
    unfold parse_field at h
    cases h2 : le_u32 i with
    | ok p =>
      obtain ⟨i2, w⟩ := p
      rw [h2] at h
      simp only [pbind, PResult.ok.injEq, Prod.mk.injEq] at h
      obtain ⟨hu1, hu2⟩ := le_u32_ok h2
      exact ⟨4, by omega, h.1 ▸ hu1, hu2⟩
    | err e => rw [h2] at h; simp [pbind] at h
    | panic m => rw [h2] at h; simp [pbind] at h
  | f32 =>
    unfold parse_field at h
    cases h2 : le_f32 i with
    | ok p =>
      obtain ⟨i2, w⟩ := p
      rw [h2] at h
      simp only [pbind, PResult.ok.injEq, Prod.mk.injEq] at h
      obtain ⟨hu1, hu2⟩ := le_f32_ok h2
      exact ⟨4, by omega, h.1 ▸ hu1, hu2⟩
    | err e => rw [h2] at h; simp [pbind] at h
    | panic m => rw [h2] at h; simp [pbind] at h
  | str =>
    unfold parse_field at h
    cases h2 : le_String i with
    | ok p =>
      obtain ⟨i2, w⟩ := p
      rw [h2] at h
      simp only [pbind, PResult.ok.injEq, Prod.mk.injEq] at h
      obtain ⟨hu1, hu2⟩ := le_String_ok h2
      exact ⟨34, by omega, h.1 ▸ hu1, hu2⟩
    | err e => rw [h2] at h; simp [pbind] at h
    | panic m => rw [h2] at h; simp [pbind] at h

theorem parse_args_len {fts : List FieldType} :
    ∀ {i i' : Bytes} {vs : List Value},
      parse_args fts i = .ok (i', vs) → i'.length ≤ i.length := by
  induction fts with
  | nil =>
    intro i i' vs h
    simp only [parse_args, PResult.ok.injEq, Prod.mk.injEq] at h
    simp [← h.1]
  | cons ft fts ih =>
    intro i i' vs h
    unfold parse_args at h
    cases h2 : parse_field ft i with
    | ok p =>
      obtain ⟨i2, v⟩ := p
      rw [h2] at h
      simp only [pbind] at h
      cases h3 : parse_args fts i2 with
      | ok q =>
        obtain ⟨i3, ws⟩ := q
        rw [h3] at h
        simp only [pbind, PResult.ok.injEq, Prod.mk.injEq] at h
        obtain ⟨k, _, hk, _⟩ := parse_field_ok h2
        have h4 := ih h3
        have h5 : i2.length ≤ i.length := by
          rw [hk]; simp
        obtain ⟨h6, _⟩ := h
        exact le_trans (h6 ▸ h4) h5
      | err e => rw [h3] at h; simp [pbind] at h
      | panic m => rw [h3] at h; simp [pbind] at h
    | err e => rw [h2] at h; simp [pbind] at h
    | panic m => rw [h2] at h; simp [pbind] at h

theorem sub_args_ok {i i' : Bytes} {opcode : Nat} {instr : SubInstruction}
    (h : parse_sub_instruction_args i opcode = .ok (i', instr)) :
    i'.length ≤ i.length := by
  unfold parse_sub_instruction_args at h
  cases ht : sub_opcode_table opcode with
  | none => rw [ht] at h; simp at h
  | some fts =>
    rw [ht] at h
    have h' : pbind (parse_args fts i)
        (fun i vs => PResult.ok (i, SubInstruction.mk opcode vs)) = .ok (i', instr) := h
    cases h2 : parse_args fts i with
    | ok p =>
      obtain ⟨i2, vs⟩ := p
      rw [h2] at h'
      simp only [pbind, PResult.ok.injEq, Prod.mk.injEq] at h'
      exact h'.1 ▸ parse_args_len h2
    | err e => rw [h2] at h'; simp [pbind] at h'
    | panic m => rw [h2] at h'; simp [pbind] at h'

theorem main_args_ok {i i' : Bytes} {opcode : Nat} {instr : MainInstruction}
    (h : parse_main_instruction_args i opcode = .ok (i', instr)) :
    i'.length ≤ i.length := by
  unfold parse_main_instruction_args at h
  cases ht : main_opcode_table opcode with
  | none => rw [ht] at h; simp at h
  | some fts =>
    rw [ht] at h
    have h' : pbind (parse_args fts i)
        (fun i vs => PResult.ok (i, MainInstruction.mk opcode vs)) = .ok (i', instr) := h
    cases h2 : parse_args fts i with
    | ok p =>
      obtain ⟨i2, vs⟩ := p
      rw [h2] at h'
      simp only [pbind, PResult.ok.injEq, Prod.mk.injEq] at h'
      exact h'.1 ▸ parse_args_len h2
    | err e => rw [h2] at h'; simp [pbind] at h'
    | panic m => rw [h2] at h'; simp [pbind] at h'

/-- Decomposition of a successful Sub record parse: the declared size field
sits at bytes 6..8 of the record and equals the consumed byte count, the
cursor strictly advances, and the decoded rank has an empty low byte. -/
theorem sub_ok_anatomy {i0 i' : Bytes} {c : CallSub}
    (h : parse_sub_instruction i0 = .ok (i', c)) :
    le_u16 (i0.drop 6) = .ok (i0.drop 8, i0.length - i'.length) ∧
    i'.length < i0.length ∧
    c.rank_mask.bits &&& 255 = 0 := by
  unfold parse_sub_instruction at h
  cases h1 : le_i32 i0 with
  | err e => rw [h1] at h; simp [pbind] at h
  | panic m => rw [h1] at h; simp [pbind] at h
  | ok p =>
  obtain ⟨i1, time⟩ := p
  rw [h1] at h
  simp only [pbind] at h
  cases h2 : le_u16 i1 with
  | err e => rw [h2] at h; simp [pbind] at h
  | panic m => rw [h2] at h; simp [pbind] at h
  | ok p =>
  obtain ⟨i2, opcode⟩ := p
  rw [h2] at h
  simp only [pbind] at h
  by_cases hs : time = -1 ∨ opcode = 65535
  · rw [if_pos hs] at h; simp at h
  rw [if_neg hs] at h
  cases h3 : le_u16 i2 with
  | err e => rw [h3] at h; simp [pbind] at h
  | panic m => rw [h3] at h; simp [pbind] at h
  | ok p =>
  obtain ⟨i3, size⟩ := p
  rw [h3] at h
  simp only [pbind] at h
  cases h4 : le_u16 i3 with
  | err e => rw [h4] at h; simp [pbind] at h
  | panic m => rw [h4] at h; simp [pbind] at h
  | ok p =>
  obtain ⟨i4, rank_raw⟩ := p
  rw [h4] at h
  simp only [pbind] at h
  cases h5 : le_u16 i4 with
  | err e => rw [h5] at h; simp [pbind] at h
  | panic m => rw [h5] at h; simp [pbind] at h
  | ok p =>
  obtain ⟨i5, param⟩ := p
  rw [h5] at h
  simp only [pbind] at h
  cases hr : Rank.from_bits rank_raw with
  | none => rw [hr] at h; simp at h
  | some rank =>
  rw [hr] at h
  cases h6 : parse_sub_instruction_args i5 opcode with
  | err e => rw [h6] at h; simp [pbind] at h
  | panic m => rw [h6] at h; simp [pbind] at h
  | ok p =>
  obtain ⟨i6, instr⟩ := p
  rw [h6] at h
  simp only [pbind] at h
  by_cases hsz : i0.length - i6.length = size
  case neg => rw [if_neg hsz] at h; simp at h
  rw [if_pos hsz] at h
  simp only [PResult.ok.injEq, Prod.mk.injEq] at h
  obtain ⟨hi6, hc⟩ := h
  obtain ⟨e1, l1⟩ := le_i32_ok h1
  obtain ⟨e2, l2⟩ := le_u16_ok h2
  obtain ⟨e3, l3⟩ := le_u16_ok h3
  obtain ⟨e4, l4⟩ := le_u16_ok h4
  obtain ⟨e5, l5⟩ := le_u16_ok h5
  have d2 : i2 = i0.drop 6 := by rw [e2, e1, List.drop_drop]
  have d3 : i3 = i0.drop 8 := by rw [e3, d2, List.drop_drop]
  have d4 : i4 = i0.drop 10 := by rw [e4, d3, List.drop_drop]
  have d5 : i5 = i0.drop 12 := by rw [e5, d4, List.drop_drop]
  have l12 : 12 ≤ i0.length := by
    rw [d4] at l5
    simp only [List.length_drop] at l5
    omega
  have hargs : i6.length ≤ i5.length := sub_args_ok h6
  have hlt : i'.length < i0.length := by
    rw [← hi6]
    rw [d5] at hargs
    simp only [List.length_drop] at hargs
    omega
  have hrank : c.rank_mask.bits &&& 255 = 0 := by
    unfold Rank.from_bits at hr
    split at hr
    · rw [← hc]
      simp only [Option.some.injEq] at hr
      rw [← hr]
      assumption
    · simp at hr
  refine ⟨?_, hlt, hrank⟩
  rw [← d2, ← d3, h3, ← hsz, hi6]

/-- Decomposition of a successful Main record parse: the declared size
field sits at bytes 6..8 of the record and equals the consumed byte count,
and the cursor strictly advances. -/
theorem main_ok_anatomy {i0 i' : Bytes} {c : CallMain}
    (h : parse_main_instruction i0 = .ok (i', c)) :
    le_u16 (i0.drop 6) = .ok (i0.drop 8, i0.length - i'.length) ∧
    i'.length < i0.length := by
  unfold parse_main_instruction at h
  cases h1 : le_u16 i0 with
  | err e => rw [h1] at h; simp [pbind] at h
  | panic m => rw [h1] at h; simp [pbind] at h
  | ok p =>
  obtain ⟨i1, time⟩ := p
  rw [h1] at h
  simp only [pbind] at h
  cases h2 : le_u16 i1 with
  | err e => rw [h2] at h; simp [pbind] at h
  | panic m => rw [h2] at h; simp [pbind] at h
  | ok p =>
  obtain ⟨i2, sub⟩ := p
  rw [h2] at h
  simp only [pbind] at h
  by_cases hs : time = 65535 ∧ sub = 4
  · rw [if_pos hs] at h; simp at h
  rw [if_neg hs] at h
  cases h3 : le_u16 i2 with
  | err e => rw [h3] at h; simp [pbind] at h
  | panic m => rw [h3] at h; simp [pbind] at h
  | ok p =>
  obtain ⟨i3, opcode⟩ := p
  rw [h3] at h
  simp only [pbind] at h
  cases h4 : le_u16 i3 with
  | err e => rw [h4] at h; simp [pbind] at h
  | panic m => rw [h4] at h; simp [pbind] at h
  | ok p =>
  obtain ⟨i4, size⟩ := p
  rw [h4] at h
  simp only [pbind] at h
  cases h6 : parse_main_instruction_args i4 opcode with
  | err e => rw [h6] at h; simp [pbind] at h
  | panic m => rw [h6] at h; simp [pbind] at h
  | ok p =>
  obtain ⟨i6, instr⟩ := p
  rw [h6] at h
  simp only [pbind] at h
  by_cases hsz : i0.length - i6.length = size
  case neg => rw [if_neg hsz] at h; simp at h
  rw [if_pos hsz] at h
  simp only [PResult.ok.injEq, Prod.mk.injEq] at h
  obtain ⟨hi6, hc⟩ := h
  obtain ⟨e1, l1⟩ := le_u16_ok h1
  obtain ⟨e2, l2⟩ := le_u16_ok h2
  obtain ⟨e3, l3⟩ := le_u16_ok h3
  obtain ⟨e4, l4⟩ := le_u16_ok h4
  have d2 : i2 = i0.drop 4 := by rw [e2, e1, List.drop_drop]
  have d3 : i3 = i0.drop 6 := by rw [e3, d2, List.drop_drop]
  have d4 : i4 = i0.drop 8 := by rw [e4, d3, List.drop_drop]
  have l8 : 8 ≤ i0.length := by
    rw [d3] at l4
    simp only [List.length_drop] at l4
    omega
  have hargs : i6.length ≤ i4.length := main_args_ok h6
  have hlt : i'.length < i0.length := by
    rw [← hi6]
    rw [d4] at hargs
    simp only [List.length_drop] at hargs
    omega
  refine ⟨?_, hlt⟩
  rw [← d3, ← d4, h4, ← hsz, hi6]

/-- Strict consumption of a successful Sub record parse. -/
theorem sub_instruction_consumes {i i' : Bytes} {c : CallSub}
    (h : parse_sub_instruction i = .ok (i', c)) : i'.length < i.length :=
  (sub_ok_anatomy h).2.1

/-- Strict consumption of a successful Main record parse. -/
theorem main_instruction_consumes {i i' : Bytes} {c : CallMain}
    (h : parse_main_instruction i = .ok (i', c)) : i'.length < i.length :=
  (main_ok_anatomy h).2

/-- When every successful inner parse strictly consumes input, the fuel
threaded through many0F is irrelevant as soon as it exceeds the input
length: the loop is genuinely bounded by the buffer. -/
theorem many0F_fuel {α : Type} (p : Bytes → PResult (Bytes × α))
    (hc : ∀ i i' a, p i = .ok (i', a) → i'.length < i.length) :
    ∀ n f g i, i.length ≤ n → i.length < f → i.length < g →
      many0F p f i = many0F p g i := by
  intro n
  induction n with
  | zero =>
    intro f g i hn hf hg
    cases f with
    | zero => omega
    | succ f =>
      cases g with
      | zero => omega
      | succ g =>
        simp only [many0F]
        cases hp : p i with
        | ok q =>
          obtain ⟨i2, a⟩ := q
          exact absurd (hc _ _ _ hp) (by omega)
        | err e => rfl
        | panic m => rfl
  | succ n ih =>
    intro f g i hn hf hg
    cases f with
    | zero => omega
    | succ f =>
      cases g with
      | zero => omega
      | succ g =>
        simp only [many0F]
        cases hp : p i with
        | err e => rfl
        | panic m => rfl
        | ok q =>
          obtain ⟨i2, a⟩ := q
          have hlt := hc _ _ _ hp
          by_cases hg2 : i2.length = i.length
          · omega
          · dsimp only
            rw [if_neg hg2, if_neg hg2]
            rw [ih f g i2 (by omega) (by omega) (by omega)]

/-- A successful many0F run never moves the cursor backwards. -/
theorem many0F_ok_len {α : Type} (p : Bytes → PResult (Bytes × α))
    (hc : ∀ i i' a, p i = .ok (i', a) → i'.length < i.length) :
    ∀ f i i' xs, many0F p f i = .ok (i', xs) → i'.length ≤ i.length := by
  intro f
  induction f with
  | zero => intro i i' xs h; simp [many0F] at h
  | succ f ih =>
    intro i i' xs h
    simp only [many0F] at h
    cases hp : p i with
    | err e =>
      rw [hp] at h
      simp only [PResult.ok.injEq, Prod.mk.injEq] at h
      simp [← h.1]
    | panic m => rw [hp] at h; simp at h
    | ok q =>
      obtain ⟨i2, a⟩ := q
      rw [hp] at h
      dsimp only at h
      by_cases hg2 : i2.length = i.length
      · rw [if_pos hg2] at h; simp at h
      · rw [if_neg hg2] at h
        cases hrec : many0F p f i2 with
        | ok r =>
          obtain ⟨i3, ys⟩ := r
          rw [hrec] at h
          simp only [PResult.ok.injEq, Prod.mk.injEq] at h
          have := ih _ _ _ hrec
          have := hc _ _ _ hp
          obtain ⟨h1, -⟩ := h
          rw [← h1]
          omega
        | err e => rw [hrec] at h; simp at h
        | panic m => rw [hrec] at h; simp at h

/-- nom count returns exactly n values on success. -/
theorem countP_len {α : Type} (p : Bytes → PResult (Bytes × α)) :
    ∀ n i i' xs, countP p n i = .ok (i', xs) → xs.length = n := by
  intro n
  induction n with
  | zero =>
    intro i i' xs h
    simp only [countP, PResult.ok.injEq, Prod.mk.injEq] at h
    rw [← h.2]
    rfl
  | succ n ih =>
    intro i i' xs h
    unfold countP at h
    cases hp : p i with
    | ok q =>
      obtain ⟨i2, a⟩ := q
      rw [hp] at h
      simp only [pbind] at h
      cases hrec : countP p n i2 with
      | ok r =>
        obtain ⟨i3, ys⟩ := r
        rw [hrec] at h
        simp only [pbind, PResult.ok.injEq, Prod.mk.injEq] at h
        rw [← h.2]
        simp [ih _ _ _ hrec]
      | err e => rw [hrec] at h; simp [pbind] at h
      | panic m => rw [hrec] at h; simp [pbind] at h
    | err e => rw [hp] at h; simp [pbind] at h
    | panic m => rw [hp] at h; simp [pbind] at h

/-- The sub-reading loop returns one Sub per offset. -/
theorem read_subs_len (input : Bytes) :
    ∀ offs subs, read_subs input offs = .ok subs → subs.length = offs.length := by
  intro offs
  induction offs with
  | nil =>
    intro subs h
    simp only [read_subs, PResult.ok.injEq] at h
    rw [← h]
    rfl
  | cons o rest ih =>
    intro subs h
    unfold read_subs at h
    by_cases ho : o ≤ input.length
    · rw [if_pos ho] at h
      cases hp : parse_sub (input.drop o) with
      | ok q =>
        obtain ⟨i2, sub⟩ := q
        rw [hp] at h
        cases hrec : read_subs input rest with
        | ok ss =>
          rw [hrec] at h
          simp only [PResult.ok.injEq] at h
          rw [← h]
          simp [ih _ hrec]
        | err e => rw [hrec] at h; simp at h
        | panic m => rw [hrec] at h; simp at h
      | err e => rw [hp] at h; simp at h
      | panic m => rw [hp] at h; simp at h
    · rw [if_neg ho] at h; simp at h

/-- The main-reading loop returns one Main per non-zero offset preceding
the first zero offset. -/
theorem read_mains_len (input : Bytes) :
    ∀ offs mains, read_mains input offs = .ok mains →
      mains.length = (offs.takeWhile (fun o => o != 0)).length := by
  intro offs
  induction offs with
  | nil =>
    intro mains h
    simp only [read_mains, PResult.ok.injEq] at h
    rw [← h]
    rfl
  | cons o rest ih =>
    intro mains h
    unfold read_mains at h
    by_cases h0 : o = 0
    · rw [if_pos h0] at h
      simp only [PResult.ok.injEq] at h
      rw [← h, h0]
      simp
    · rw [if_neg h0] at h
      by_cases ho : o ≤ input.length
      · rw [if_pos ho] at h
        cases hp : parse_main (input.drop o) with
        | ok q =>
          obtain ⟨i2, mn⟩ := q
          rw [hp] at h
          cases hrec : read_mains input rest with
          | ok ms =>
            rw [hrec] at h
            simp only [PResult.ok.injEq] at h
            rw [← h]
            simp [List.takeWhile_cons, h0, ih _ hrec]
          | err e => rw [hrec] at h; simp at h
          | panic m => rw [hrec] at h; simp at h
        | err e => rw [hp] at h; simp at h
        | panic m => rw [hp] at h; simp at h
      · rw [if_neg ho] at h; simp at h

/-! Claim theorems. -/

/-- C1, counterexample: Ecl::from_slice can abort the process — on this
buffer (valid header, one Sub record whose rank_mask raw value is 0x0001)
the Rank unwrap panics, so decode does not always return a script or a
typed error. -/
theorem from_slice_panic_reachable :
    Ecl.from_slice [1,0, 0,0, 0,0,0,0, 0,0,0,0, 0,0,0,0, 20,0,0,0,
      0,0,0,0, 0,0, 12,0, 1,0, 0,0] = .panic "unwrap on None" := rfl

/-- C1, amended: for every input buffer, Ecl::from_slice yields a decoded
script, a typed nom error, or a process abort, and all three outcomes are
reachable: an empty well-formed script decodes, the empty buffer gives a
typed error, and a Sub offset beyond the buffer end aborts via the slice
panic. -/
theorem from_slice_outcomes :
    (∀ input : Bytes,
      (∃ p, Ecl.from_slice input = .ok p) ∨
      (∃ e, Ecl.from_slice input = .err e) ∨
      (∃ m, Ecl.from_slice input = .panic m)) ∧
    Ecl.from_slice [0,0, 0,0, 0,0,0,0, 0,0,0,0, 0,0,0,0] = .ok ([], ⟨[], []⟩) ∧
    Ecl.from_slice ([] : Bytes) = .err ⟨[], .Eof⟩ ∧
    Ecl.from_slice [1,0, 0,0, 0,0,0,0, 0,0,0,0, 0,0,0,0, 255,0,0,0]
      = .panic "slice index out of range" := by
  refine ⟨?_, rfl, rfl, rfl⟩
  intro input
  cases h : Ecl.from_slice input with
  | ok p => exact Or.inl ⟨p, rfl⟩
  | err e => exact Or.inr (Or.inl ⟨e, rfl⟩)
  | panic m => exact Or.inr (Or.inr ⟨m, rfl⟩)

/-- C2, counterexample: a record with time = -1 but opcode = 0 — an
otherwise valid Noop record in which only one of the two sentinel
conditions holds — is treated as the sentinel (the Eof error that ends
many0), not decoded as an ordinary CallSub. -/
theorem sub_sentinel_single_condition_terminates :
    parse_sub_instruction [255,255,255,255, 0,0, 12,0, 0,1, 0,0]
      = .err ⟨[12,0,0,1,0,0], .Eof⟩ := rfl

/-- C2, amended: the Sub sentinel test is a disjunction — any record whose
time equals -1 OR whose opcode equals 0xffff terminates the sequence — and
a record satisfying neither condition decodes as an ordinary CallSub
(shown on a concrete Noop record). -/
theorem sub_sentinel_disjunction :
    (∀ (b0 b1 b2 b3 c0 c1 : Nat) (rest : Bytes),
      toI32 (b0 + 256 * b1 + 65536 * b2 + 16777216 * b3) = -1 ∨ c0 + 256 * c1 = 65535 →
      parse_sub_instruction (b0 :: b1 :: b2 :: b3 :: c0 :: c1 :: rest)
        = .err ⟨rest, .Eof⟩) ∧
    parse_sub_instruction [5,0,0,0, 0,0, 12,0, 0,1, 0,0]
      = .ok ([], ⟨5, ⟨256⟩, 0, ⟨0, []⟩⟩) := by
  refine ⟨?_, rfl⟩
  intro b0 b1 b2 b3 c0 c1 rest h
  simp only [parse_sub_instruction, le_i32, le_u32, le_u16, pbind]
  rw [if_pos h]

/-- C2, witness: the sentinel branch applied at the canonical full
sentinel record. -/
theorem sub_sentinel_disjunction_witness :
    parse_sub_instruction [255,255,255,255, 255,255, 1,2,3] = .err ⟨[1,2,3], .Eof⟩ :=
  sub_sentinel_disjunction.1 255 255 255 255 255 255 [1,2,3] (Or.inl (by decide))

/-- C3, counterexample: a Sub record whose declared size (13) differs from
its consumed byte count (12) aborts via the assert_eq panic instead of
returning a SizeMismatch typed error. -/
theorem record_size_mismatch_panics :
    parse_sub_instruction [0,0,0,0, 0,0, 13,0, 0,1, 0,0] = .panic "assertion failed" := rfl

/-- C3, amended: for every successfully decoded Sub or Main record the
consumed byte count equals the declared size field (stored at record bytes
6..8), but a mismatch aborts via the assert_eq panic rather than producing
a typed SizeMismatch error (shown on a concrete Main record). -/
theorem record_size_exact_or_abort :
    (∀ (i i' : Bytes) (c : CallSub), parse_sub_instruction i = .ok (i', c) →
      le_u16 (i.drop 6) = .ok (i.drop 8, i.length - i'.length)) ∧
    (∀ (i i' : Bytes) (c : CallMain), parse_main_instruction i = .ok (i', c) →
      le_u16 (i.drop 6) = .ok (i.drop 8, i.length - i'.length)) ∧
    parse_main_instruction [0,0, 0,0, 8,0, 5,0] = .panic "assertion failed" :=
  ⟨fun _ _ _ h => (sub_ok_anatomy h).1, fun _ _ _ h => (main_ok_anatomy h).1, rfl⟩

/-- C3, witness: size-exactness applied to a concrete Noop record. -/
theorem record_size_exact_witness :
    le_u16 (([0,0,0,0, 0,0, 12,0, 0,1, 0,0] : Bytes).drop 6)
      = .ok (([0,0,0,0, 0,0, 12,0, 0,1, 0,0] : Bytes).drop 8,
             ([0,0,0,0, 0,0, 12,0, 0,1, 0,0] : Bytes).length - ([] : Bytes).length) :=
  record_size_exact_or_abort.1 _ [] ⟨0, ⟨256⟩, 0, ⟨0, []⟩⟩ rfl

/-- C4, counterexample: rank_mask raw 0x0001 (a bit outside 0xff00) makes
decoding abort via the Option unwrap panic instead of failing with a typed
InvalidRankBits error, and raw 0x2000 — which sets none of the four named
difficulty bits — is accepted because the ALL flag covers the whole top
byte. -/
theorem rank_unwrap_panic_on_low_bits :
    parse_sub_instruction [0,0,0,0, 0,0, 12,0, 1,0, 0,0] = .panic "unwrap on None" ∧
    Rank.from_bits 8192 = some ⟨8192⟩ := ⟨rfl, rfl⟩

/-- C4, amended: Rank reconstruction rejects exactly the raw values with a
bit outside 0xff00 (non-empty low byte), and such a value aborts decoding
through the unwrap panic, not a typed error (shown with raw 0x00ff). -/
theorem rank_invalid_bits_abort :
    (∀ raw : Nat, Rank.from_bits raw = none ↔ raw &&& 255 ≠ 0) ∧
    parse_sub_instruction [0,0,0,0, 0,0, 12,0, 255,0, 0,0] = .panic "unwrap on None" := by
  refine ⟨?_, rfl⟩
  intro raw
  by_cases hb : raw &&& 255 = 0 <;> simp [Rank.from_bits, hb]

/-- C5, counterexample: opcode 44 lies in a gap of the Sub table; decoding
a record with opcode 44 reaches the unreachable panic instead of failing
with a typed UnknownOpcode error. -/
theorem unknown_opcode_panics_concrete :
    parse_sub_instruction [0,0,0,0, 44,0, 8,0, 0,1, 0,0] = .panic "unreachable" := rfl

/-- C5, amended: every opcode absent from the Sub or Main dispatch table
drives the argument decoder into the unreachable panic — no typed
UnknownOpcode error exists; 44 and 110 are such Sub gaps and 1 is a Main
gap. -/
theorem unknown_opcode_unreachable :
    (∀ (i : Bytes) (opcode : Nat), sub_opcode_table opcode = none →
      parse_sub_instruction_args i opcode = .panic "unreachable") ∧
    (∀ (i : Bytes) (opcode : Nat), main_opcode_table opcode = none →
      parse_main_instruction_args i opcode = .panic "unreachable") ∧
    sub_opcode_table 44 = none ∧ sub_opcode_table 110 = none ∧
    main_opcode_table 1 = none := by
  refine ⟨?_, ?_, rfl, rfl, rfl⟩
  · intro i opcode h
    unfold parse_sub_instruction_args
    rw [h]
  · intro i opcode h
    unfold parse_main_instruction_args
    rw [h]

/-- C5, witness: the Sub branch applied at gap opcode 44. -/
theorem unknown_opcode_unreachable_witness :
    parse_sub_instruction_args [1, 2] 44 = .panic "unreachable" :=
  unknown_opcode_unreachable.1 [1, 2] 44 rfl

/-- C6, counterexample: a buffer with main_count = 2 fails with the
generic nom Eof error — the very same error value a plain truncated read
produces — so no dedicated UnsupportedFeature error exists in the code. -/
theorem nonzero_main_count_generic_error :
    parse_ecl [1,0, 2,0] = .err ⟨[], .Eof⟩ ∧
    le_u16 ([] : Bytes) = .err ⟨[], .Eof⟩ := ⟨rfl, rfl⟩

/-- C6, amended: whenever the header main_count field is non-zero,
parse_ecl fails immediately after reading the two header counts — before
any offset or record is decoded — with the typed (but generic Eof) nom
error at that position. -/
theorem nonzero_main_count_hard_failure :
    ∀ (input i1 i2 : Bytes) (sc mc : Nat),
      le_u16 input = .ok (i1, sc) → le_u16 i1 = .ok (i2, mc) → mc ≠ 0 →
      parse_ecl input = .err ⟨i2, .Eof⟩ := by
  intro input i1 i2 sc mc h1 h2 hmc
  unfold parse_ecl
  rw [h1]
  simp only [pbind]
  rw [h2]
  simp only [pbind]
  rw [if_pos hmc]

/-- C6, witness: a four-byte header with main_count = 1. -/
theorem nonzero_main_count_hard_failure_witness :
    parse_ecl [0,0, 1,0] = .err ⟨[], .Eof⟩ :=
  nonzero_main_count_hard_failure [0,0,1,0] [1,0] [] 0 1 rfl rfl (by decide)

/-- C7, counterexample: with no zero byte among the first 34 bytes the
decoded text keeps all 40 input bytes — the zero-byte scan is not limited
to the 34-byte window — and with fewer than 34 bytes remaining the decoder
panics instead of advancing the cursor by 34 bytes. -/
theorem le_String_scans_past_window :
    le_String (List.replicate 40 65) = .ok (List.replicate 6 65, List.replicate 40 65) ∧
    le_String [65] = .panic "slice index out of range" := ⟨by decide, rfl⟩

/-- C7, amended: the fixed-width text decoder truncates at the first zero
byte of the WHOLE remaining input, and advances the cursor by exactly 34
bytes when at least 34 bytes remain; with fewer than 34 bytes remaining it
panics (slice index out of range). -/
theorem le_String_full_behavior :
    (∀ i : Bytes, 34 ≤ i.length →
      le_String i = .ok (i.drop 34, i.takeWhile (fun c => c ≠ 0))) ∧
    (∀ i : Bytes, i.length < 34 → le_String i = .panic "slice index out of range") := by
  constructor
  · intro i h
    unfold le_String
    rw [if_pos h]
  · intro i h
    unfold le_String
    rw [if_neg (by omega)]

/-- C7, witness: a full 34-byte window with no zero byte, and the empty
input. -/
theorem le_String_full_behavior_witness :
    le_String (List.replicate 34 66)
      = .ok ((List.replicate 34 66).drop 34,
             (List.replicate 34 66).takeWhile (fun c => c ≠ 0)) ∧
    le_String ([] : Bytes) = .panic "slice index out of range" :=
  ⟨le_String_full_behavior.1 _ (by simp), le_String_full_behavior.2 [] (by simp)⟩

/-- C8: for every buffer that decodes successfully, the Sub list length
equals the header sub_count field and the Main list length equals the
number of non-zero offsets preceding the first zero offset in the
3-element Main offset array. -/
theorem ecl_counts_match_header :
    ∀ (input rest : Bytes) (ecl : Ecl), parse_ecl input = .ok (rest, ecl) →
      (∀ (i1 : Bytes) (sc : Nat), le_u16 input = .ok (i1, sc) →
        ecl.subs.length = sc) ∧
      (∀ (i3 : Bytes) (moffs : List Nat),
        countP le_u32 3 (input.drop 4) = .ok (i3, moffs) →
        ecl.mains.length = (moffs.takeWhile (fun o => o != 0)).length) := by
  intro input rest ecl h
  unfold parse_ecl at h
  cases h1 : le_u16 input with
  | err e => rw [h1] at h; simp [pbind] at h
  | panic m => rw [h1] at h; simp [pbind] at h
  | ok p =>
  obtain ⟨i1, sc⟩ := p
  rw [h1] at h
  simp only [pbind] at h
  cases h2 : le_u16 i1 with
  | err e => rw [h2] at h; simp [pbind] at h
  | panic m => rw [h2] at h; simp [pbind] at h
  | ok p =>
  obtain ⟨i2, mc⟩ := p
  rw [h2] at h
  simp only [pbind] at h
  by_cases hmc : mc ≠ 0
  · rw [if_pos hmc] at h; simp at h
  rw [if_neg hmc] at h
  cases h3 : countP le_u32 3 i2 with
  | err e => rw [h3] at h; simp [pbind] at h
  | panic m => rw [h3] at h; simp [pbind] at h
  | ok p =>
  obtain ⟨i3, moffs⟩ := p
  rw [h3] at h
  simp only [pbind] at h
  cases h4 : countP le_u32 sc i3 with
  | err e => rw [h4] at h; simp [pbind] at h
  | panic m => rw [h4] at h; simp [pbind] at h
  | ok p =>
  obtain ⟨i4, soffs⟩ := p
  rw [h4] at h
  simp only [pbind] at h
  cases h5 : read_subs input soffs with
  | err e => rw [h5] at h; simp at h
  | panic m => rw [h5] at h; simp at h
  | ok subs =>
  rw [h5] at h
  dsimp only at h
  cases h6 : read_mains input moffs with
  | err e => rw [h6] at h; simp at h
  | panic m => rw [h6] at h; simp at h
  | ok mains =>
  rw [h6] at h
  dsimp only at h
  simp only [PResult.ok.injEq, Prod.mk.injEq] at h
  obtain ⟨hrest, hecl⟩ := h
  constructor
  · intro i1x scx h1x
    simp only [PResult.ok.injEq, Prod.mk.injEq] at h1x
    rw [← hecl]
    dsimp only
    rw [read_subs_len input soffs subs h5, countP_len le_u32 sc i3 i4 soffs h4]
    exact h1x.2
  · intro i3x moffsx h3x
    obtain ⟨e1, l1⟩ := le_u16_ok h1
    obtain ⟨e2, l2⟩ := le_u16_ok h2
    have d2 : i2 = input.drop 4 := by rw [e2, e1, List.drop_drop]
    rw [← d2] at h3x
    have hy : PResult.ok (i3, moffs) = PResult.ok (i3x, moffsx) := h3.symm.trans h3x
    simp only [PResult.ok.injEq, Prod.mk.injEq] at hy
    rw [← hecl]
    dsimp only
    rw [read_mains_len input moffs mains h6, hy.2]

/-- C8, witness: a concrete well-formed buffer with one sentinel-only Sub
and an all-zero Main offset array. -/
theorem ecl_counts_match_header_witness :
    (Ecl.mk [Sub.mk []] []).subs.length = 1 ∧
    (Ecl.mk [Sub.mk []] []).mains.length
      = (([0, 0, 0] : List Nat).takeWhile (fun o => o != 0)).length := by
  have h := ecl_counts_match_header
    [1,0, 0,0, 0,0,0,0, 0,0,0,0, 0,0,0,0, 20,0,0,0, 255,255,255,255, 255,255]
    [] (Ecl.mk [Sub.mk []] []) rfl
  exact ⟨h.1 [0,0, 0,0,0,0, 0,0,0,0, 0,0,0,0, 20,0,0,0, 255,255,255,255, 255,255] 1 rfl,
         h.2 [20,0,0,0, 255,255,255,255, 255,255] [0, 0, 0] rfl⟩

/-- C9: decoding always terminates and is bounded by the buffer — both
record parsers strictly advance the cursor on success, the sequence
decoders never move the cursor backwards, and the record loops are
insensitive to any fuel bound exceeding the input length (so they can
neither loop forever nor run past the end of the buffer). -/
theorem decode_terminates_cursor_advances :
    (∀ (i i' : Bytes) (c : CallSub), parse_sub_instruction i = .ok (i', c) →
      i'.length < i.length) ∧
    (∀ (i i' : Bytes) (c : CallMain), parse_main_instruction i = .ok (i', c) →
      i'.length < i.length) ∧
    (∀ (i i' : Bytes) (s : Sub), parse_sub i = .ok (i', s) → i'.length ≤ i.length) ∧
    (∀ (i i' : Bytes) (m : Main), parse_main i = .ok (i', m) → i'.length ≤ i.length) ∧
    (∀ (f g : Nat) (i : Bytes), i.length < f → i.length < g →
      many0F parse_sub_instruction f i = many0F parse_sub_instruction g i) ∧
    (∀ (f g : Nat) (i : Bytes), i.length < f → i.length < g →
      many0F parse_main_instruction f i = many0F parse_main_instruction g i) := by
  have hcs : ∀ (i i' : Bytes) (c : CallSub),
      parse_sub_instruction i = .ok (i', c) → i'.length < i.length :=
    fun _ _ _ h => sub_instruction_consumes h
  have hcm : ∀ (i i' : Bytes) (c : CallMain),
      parse_main_instruction i = .ok (i', c) → i'.length < i.length :=
    fun _ _ _ h => main_instruction_consumes h
  refine ⟨hcs, hcm, ?_, ?_, ?_, ?_⟩
  · intro i i' s h
    unfold parse_sub at h
    cases hm : many0F parse_sub_instruction (i.length + 1) i with
    | err e => rw [hm] at h; simp [pbind] at h
    | panic m => rw [hm] at h; simp [pbind] at h
    | ok p =>
      obtain ⟨i2, xs⟩ := p
      rw [hm] at h
      simp only [pbind, PResult.ok.injEq, Prod.mk.injEq] at h
      exact h.1 ▸ many0F_ok_len parse_sub_instruction hcs _ _ _ _ hm
  · intro i i' m h
    unfold parse_main at h
    cases hm : many0F parse_main_instruction (i.length + 1) i with
    | err e => rw [hm] at h; simp [pbind] at h
    | panic m2 => rw [hm] at h; simp [pbind] at h
    | ok p =>
      obtain ⟨i2, xs⟩ := p
      rw [hm] at h
      simp only [pbind, PResult.ok.injEq, Prod.mk.injEq] at h
      exact h.1 ▸ many0F_ok_len parse_main_instruction hcm _ _ _ _ hm
  · intro f g i hf hg
    exact many0F_fuel parse_sub_instruction hcs i.length f g i (le_refl _) hf hg
  · intro f g i hf hg
    exact many0F_fuel parse_main_instruction hcm i.length f g i (le_refl _) hf hg

/-- C9, witness: strict cursor advance applied to a concrete Noop
record. -/
theorem decode_terminates_witness :
    ([] : Bytes).length < ([0,0,0,0, 0,0, 12,0, 0,1, 0,0] : Bytes).length :=
  decode_terminates_cursor_advances.1 _ [] ⟨0, ⟨256⟩, 0, ⟨0, []⟩⟩ rfl

/-- C10: every successfully decoded CallSub carries a rank_mask whose low
byte is empty, and Rank reconstruction accepts exactly the raw values with
an empty low byte — including 0x1000, which sets none of the four named
difficulty bits but lies inside the ALL mask. -/
theorem rank_mask_low_byte_zero :
    (∀ (i i' : Bytes) (c : CallSub), parse_sub_instruction i = .ok (i', c) →
      c.rank_mask.bits &&& 255 = 0) ∧
    (∀ raw : Nat, (Rank.from_bits raw).isSome ↔ raw &&& 255 = 0) ∧
    Rank.from_bits 4096 = some ⟨4096⟩ := by
  refine ⟨fun _ _ _ h => (sub_ok_anatomy h).2.2, ?_, rfl⟩
  intro raw
  by_cases hb : raw &&& 255 = 0 <;> simp [Rank.from_bits, hb]

/-- C10, witness: a record carrying rank_mask 0x1000 decodes successfully
and satisfies the invariant. -/
theorem rank_mask_low_byte_zero_witness :
    (CallSub.mk 0 ⟨4096⟩ 0 ⟨0, []⟩).rank_mask.bits &&& 255 = 0 :=
  rank_mask_low_byte_zero.1 [0,0,0,0, 0,0, 12,0, 0,16, 0,0] []
    ⟨0, ⟨4096⟩, 0, ⟨0, []⟩⟩ rfl

end ECL
